import Mathlib

/-!
Shallow embedding of the core logic of the foursquare-clone server:
the friendship handlers (`createFriendship`, `updateFriendship`,
`getUserFriends`), the geospatial venue search (`searchVenues`) and the
activity-feed aggregation (`getActivityFeed`).

Database tables are embedded as lists of row structures mirroring the
drizzle schema (`users`, `venues`, `checkins`, `friendships`); SQL
queries become list filters/joins; `ORDER BY` is modelled relationally
(any permutation of the rows that is sorted by the order key), which is
the guarantee the SQL standard gives when rows tie on the key.
Timestamps and ids are integers; coordinates are real numbers.
-/

namespace FsqClone

/-- Friendship status enum (`friendship_status` pgEnum in the schema). -/
inductive FriendshipStatus where
  | pending
  | accepted
  | rejected
  | blocked
deriving DecidableEq, Repr

/-- A row of the `users` table. -/
structure UserRow where
  id : Int
  username : String
  email : String
  full_name : String
  bio : Option String
  profile_image_url : Option String
  created_at : Int
  updated_at : Int
deriving DecidableEq, Repr

/-- A row of the `friendships` table. -/
structure FriendshipRow where
  id : Int
  requester_id : Int
  addressee_id : Int
  status : FriendshipStatus
  created_at : Int
  updated_at : Int
deriving DecidableEq, Repr

/-- A row of the `checkins` table. -/
structure CheckinRow where
  id : Int
  user_id : Int
  venue_id : Int
  message : Option String
  created_at : Int
deriving DecidableEq, Repr

/-- A row of the `venues` table (coordinates are stored as two float
columns, embedded as reals). -/
structure VenueRow where
  id : Int
  name : String
  address : String
  latitude : ℝ
  longitude : ℝ
  category : String
  description : Option String
  phone : Option String
  website : Option String
  created_by : Int
  created_at : Int
  updated_at : Int

/-- Error taxonomy of the friendship handlers (the source throws
`Error`s with distinct messages; we name them as the spec does). -/
inductive FriendshipError where
  | selfRequest
  | userNotFound
  | duplicateEdge
  | notFound
  | blockedImmutable
deriving DecidableEq, Repr

/-- The duplicate check of `createFriendship`: does row `f` connect the
unordered pair `{r, a}` (in either direction, any status)? -/
def connectsPair (f : FriendshipRow) (r a : Int) : Bool :=
  (f.requester_id = r && f.addressee_id = a) ||
    (f.requester_id = a && f.addressee_id = r)

/-- The row `createFriendship` inserts: a fresh `pending` edge
(`newId`/`now` stand for the serial id and timestamps the database
generates on insert). -/
def pendingEdge (newId r a now : Int) : FriendshipRow :=
  { id := newId, requester_id := r, addressee_id := a, status := .pending,
    created_at := now, updated_at := now }

/-- `createFriendship` (src/server/src/handlers/create_friendship.ts):
self-request check, then user-existence check (exactly two rows found
for the two ids), then duplicate check in both directions, then insert
of a `pending` edge.  `newId`/`now` stand for the serial id and the
insertion timestamp the database would generate. -/
def createFriendship (users : List UserRow) (friendships : List FriendshipRow)
    (requester_id addressee_id : Int) (newId now : Int) :
    Except FriendshipError (FriendshipRow × List FriendshipRow) :=
  if requester_id = addressee_id then
    .error .selfRequest
  else
    let found := users.filter (fun u => u.id = requester_id || u.id = addressee_id)
    if found.length ≠ 2 then
      .error .userNotFound
    else
      let existing := friendships.filter (fun f => connectsPair f requester_id addressee_id)
      if existing.length > 0 then
        .error .duplicateEdge
      else
        let row := pendingEdge newId requester_id addressee_id now
        .ok (row, friendships ++ [row])

/-- The status values accepted by `updateFriendshipInputSchema`
(`z.enum(['accepted', 'rejected', 'blocked'])`). -/
inductive UpdateStatus where
  | accepted
  | rejected
  | blocked
deriving DecidableEq, Repr

/-- Embedding of an `UpdateStatus` into the status enum. -/
def UpdateStatus.toStatus : UpdateStatus → FriendshipStatus
  | .accepted => .accepted
  | .rejected => .rejected
  | .blocked => .blocked

/-- The `set` clause of `updateFriendship` applied to one row: new
status plus a refreshed `updated_at`. -/
def applyStatus (newStatus : UpdateStatus) (now : Int) (g : FriendshipRow) :
    FriendshipRow :=
  { g with status := newStatus.toStatus, updated_at := now }

/-- `updateFriendship` (src/server/src/handlers/update_friendship.ts):
look the edge up by id, fail if absent, fail if its current status is
`blocked`, otherwise set the new status and refresh `updated_at`. -/
def updateFriendship (friendships : List FriendshipRow) (fid : Int)
    (newStatus : UpdateStatus) (now : Int) :
    Except FriendshipError (FriendshipRow × List FriendshipRow) :=
  match friendships.find? (fun f => f.id = fid) with
  | none => .error .notFound
  | some f =>
    if f.status = .blocked then
      .error .blockedImmutable
    else
      .ok (applyStatus newStatus now f,
        friendships.map (fun g => if g.id = fid then applyStatus newStatus now g else g))

/-- Join condition of `getUserFriends`: the friendship touches `userId`
and `u` is the opposite endpoint. -/
def friendJoinCond (f : FriendshipRow) (u : UserRow) (userId : Int) : Bool :=
  (f.requester_id = userId && u.id = f.addressee_id) ||
    (f.addressee_id = userId && u.id = f.requester_id)

/-- Shape of the rows selected by `getUserFriends` before the final
projection: user columns plus the two friendship endpoint columns. -/
structure FriendJoinRow where
  id : Int
  username : String
  email : String
  full_name : String
  bio : Option String
  profile_image_url : Option String
  created_at : Int
  updated_at : Int
  friendship_requester_id : Int
  friendship_addressee_id : Int
deriving DecidableEq, Repr

/-- Shape of the records `getUserFriends` returns (`User`): only user
columns, the friendship columns are dropped by the final `map`. -/
structure UserOut where
  id : Int
  username : String
  email : String
  full_name : String
  bio : Option String
  profile_image_url : Option String
  created_at : Int
  updated_at : Int
deriving DecidableEq, Repr

/-- Projection of a user row to the returned record shape. -/
def UserRow.toOut (u : UserRow) : UserOut :=
  { id := u.id, username := u.username, email := u.email, full_name := u.full_name,
    bio := u.bio, profile_image_url := u.profile_image_url,
    created_at := u.created_at, updated_at := u.updated_at }

/-- `getUserFriends` (src/unnamed/part_010): join `friendships` with
`users` on `friendJoinCond`, keep `status = accepted`, select the user
columns plus the edge endpoints, then map away the edge columns. -/
def getUserFriends (users : List UserRow) (friendships : List FriendshipRow)
    (userId : Int) : List UserOut :=
  let joined := friendships.flatMap (fun f =>
    (users.filter (fun u => friendJoinCond f u userId)).map (fun u => (f, u)))
  let results := (joined.filter (fun p => p.1.status = FriendshipStatus.accepted)).map
    (fun p =>
      ({ id := p.2.id, username := p.2.username, email := p.2.email,
         full_name := p.2.full_name, bio := p.2.bio,
         profile_image_url := p.2.profile_image_url,
         created_at := p.2.created_at, updated_at := p.2.updated_at,
         friendship_requester_id := p.1.requester_id,
         friendship_addressee_id := p.1.addressee_id } : FriendJoinRow))
  results.map (fun r =>
    { id := r.id, username := r.username, email := r.email, full_name := r.full_name,
      bio := r.bio, profile_image_url := r.profile_image_url,
      created_at := r.created_at, updated_at := r.updated_at })

/-- Shape of the records `getActivityFeed` returns (`ActivityFeedItem`). -/
structure ActivityFeedItem where
  id : Int
  user_id : Int
  username : String
  full_name : String
  venue_id : Int
  venue_name : String
  venue_address : String
  message : Option String
  created_at : Int
deriving DecidableEq, Repr

/-- Join condition of `getActivityFeed` on `friendships`: the edge
connects the check-in's author and `userId`, in either direction. -/
def feedJoinCond (f : FriendshipRow) (c : CheckinRow) (userId : Int) : Bool :=
  (f.requester_id = c.user_id && f.addressee_id = userId) ||
    (f.requester_id = userId && f.addressee_id = c.user_id)

/-- The projection `getActivityFeed` selects for one joined row. -/
def feedItem (c : CheckinRow) (u : UserRow) (v : VenueRow) : ActivityFeedItem :=
  { id := c.id, user_id := c.user_id, username := u.username, full_name := u.full_name,
    venue_id := c.venue_id, venue_name := v.name, venue_address := v.address,
    message := c.message, created_at := c.created_at }

/-- The (unordered) row set of the `getActivityFeed` query
(src/server/src/handlers/get_activity_feed.ts): check-ins inner-joined
with their author, their venue and an `accepted` friendship edge
connecting the author to `userId`. -/
def feedRows (users : List UserRow) (venues : List VenueRow)
    (friendships : List FriendshipRow) (checkins : List CheckinRow)
    (userId : Int) : List ActivityFeedItem :=
  ((checkins.flatMap (fun c =>
      (users.filter (fun u => c.user_id = u.id)).flatMap (fun u =>
        (venues.filter (fun v => c.venue_id = v.id)).flatMap (fun v =>
          (friendships.filter (fun f => feedJoinCond f c userId)).map (fun f =>
            (c, u, v, f)))))).filter
    (fun q => q.2.2.2.status = FriendshipStatus.accepted)).map
    (fun q => feedItem q.1 q.2.1 q.2.2.1)

/-- `getActivityFeed userId limit` result predicate: the rows of the
query, ordered by `created_at` descending (`ORDER BY ... DESC` fixes
only the key order, so any key-sorted permutation is a possible
execution), truncated to `limit` (`limit: number = 20` defaults to 20
when the argument is omitted). -/
def FeedResult (users : List UserRow) (venues : List VenueRow)
    (friendships : List FriendshipRow) (checkins : List CheckinRow)
    (userId : Int) (limit : Option Nat) (out : List ActivityFeedItem) : Prop :=
  ∃ sorted : List ActivityFeedItem,
    sorted.Perm (feedRows users venues friendships checkins userId) ∧
    sorted.Pairwise (fun a b => b.created_at ≤ a.created_at) ∧
    out = sorted.take (limit.getD 20)

/-- Input shape of `searchVenues` (`searchVenuesInputSchema`);
`radius`, `category` and `query` are optional. -/
structure SearchVenuesInput where
  latitude : ℝ
  longitude : ℝ
  radius : Option ℝ
  category : Option String
  query : Option String

/-- `radians(x)` as used in the SQL distance expression. -/
noncomputable def radians (x : ℝ) : ℝ := x * Real.pi / 180

/-- The argument the query passes to `acos`:
`cos(radians(qlat)) * cos(radians(vlat)) * cos(radians(vlon) - radians(qlon))
 + sin(radians(qlat)) * sin(radians(vlat))`.  The source applies no
clamping to this value. -/
noncomputable def acosArg (qlat qlon vlat vlon : ℝ) : ℝ :=
  Real.cos (radians qlat) * Real.cos (radians vlat) *
      Real.cos (radians vlon - radians qlon) +
    Real.sin (radians qlat) * Real.sin (radians vlat)

/-- The distance expression of the query: `6371 * acos(...)`. -/
noncomputable def venueDistance (input : SearchVenuesInput) (v : VenueRow) : ℝ :=
  6371 * Real.arccos (acosArg input.latitude input.longitude v.latitude v.longitude)

/-- `const radius = input.radius || 10`: absent (and, by JS truthiness,
zero) radius becomes 10. -/
noncomputable def effectiveRadius (input : SearchVenuesInput) : ℝ :=
  match input.radius with
  | none => 10
  | some r => if r = 0 then 10 else r

/-- SQL `LIKE` pattern matching over characters, with `%` (any run),
`_` (any single character) and backslash escapes, via explicit fuel
(each step consumes at least one character of the pattern or of the
string, so `p.length + s.length + 1` fuel is always enough). -/
def likeMatchFuel : Nat → List Char → List Char → Bool
  | 0, _, _ => false
  | _ + 1, [], s =>
    match s with
    | [] => true
    | _ :: _ => false
  | fuel + 1, '%' :: p, s =>
    likeMatchFuel fuel p s ||
      (match s with
       | [] => false
       | _ :: s2 => likeMatchFuel fuel ('%' :: p) s2)
  | fuel + 1, '\\' :: p, s =>
    match p, s with
    | pc :: p2, sc :: s2 => sc = pc && likeMatchFuel fuel p2 s2
    | _, _ => false
  | fuel + 1, '_' :: p, s =>
    match s with
    | [] => false
    | _ :: s2 => likeMatchFuel fuel p s2
  | fuel + 1, pc :: p, s =>
    match s with
    | [] => false
    | sc :: s2 => sc = pc && likeMatchFuel fuel p s2

/-- `s ILIKE pat`: case-insensitive `LIKE` (both sides lowered). -/
def ilikeMatch (pat s : String) : Bool :=
  likeMatchFuel (pat.length + s.length + 1) (pat.data.map Char.toLower)
    (s.data.map Char.toLower)

/-- The pattern `'%' + input.query + '%'` built by the handler. -/
def queryPattern (q : String) : String := "%" ++ q ++ "%"

/-- The text condition pushed into the query when `input.query` is
truthy: `name ILIKE '%q%' OR description ILIKE '%q%'`; a NULL
description yields SQL NULL, which the WHERE clause treats as no
match. -/
def textFilter (q : String) (v : VenueRow) : Bool :=
  ilikeMatch (queryPattern q) v.name ||
    (match v.description with
     | none => false
     | some d => ilikeMatch (queryPattern q) d)

/-- The WHERE clause of `searchVenues` (src/unnamed/part_009): distance
within the effective radius, conjoined with the category condition when
`input.category` is truthy (a non-empty string) and the text condition
when `input.query` is truthy. -/
def qualifies (input : SearchVenuesInput) (v : VenueRow) : Prop :=
  venueDistance input v ≤ effectiveRadius input ∧
    (match input.category with
     | none => True
     | some c => if c = "" then True else v.category = c) ∧
    (match input.query with
     | none => True
     | some q => if q = "" then True else textFilter q v = true)

/-- The filtered venue list (classical decidability stands in for the
database evaluating the WHERE clause on each row). -/
noncomputable def searchFilter (input : SearchVenuesInput)
    (venues : List VenueRow) : List VenueRow :=
  venues.filter (fun v => @decide (qualifies input v) (Classical.propDecidable _))

/-- `searchVenues` result predicate: a permutation of the filtered rows
sorted ascending by the computed distance (`ORDER BY distance` with no
secondary key fixes only the key order). -/
def SearchResult (input : SearchVenuesInput) (venues : List VenueRow)
    (out : List VenueRow) : Prop :=
  out.Perm (searchFilter input venues) ∧
    out.Pairwise (fun a b => venueDistance input a ≤ venueDistance input b)

/-- Unordered-pair equality of two friendship edges: they connect the
same pair of users, in either direction. -/
def pairEq (f g : FriendshipRow) : Prop :=
  (f.requester_id = g.requester_id ∧ f.addressee_id = g.addressee_id) ∨
    (f.requester_id = g.addressee_id ∧ f.addressee_id = g.requester_id)

instance (f g : FriendshipRow) : Decidable (pairEq f g) := by
  unfold pairEq; infer_instance

/-- Modelled from the spec: "case-insensitive substring match against
venue name or venue description" — `q` is a case-insensitive substring
of `s`.  This follows the spec's words, to be compared with the
`ILIKE`-based `textFilter` taken from the source. -/
def substringCI (q s : String) : Prop :=
  List.IsInfix (q.data.map Char.toLower) (s.data.map Char.toLower)

instance (q s : String) : Decidable (substringCI q s) := by
  unfold substringCI
  exact List.decidableInfix _ _

/-- Demo user 1 for concrete witnesses. -/
def demoU1 : UserRow :=
  { id := 1, username := "alice", email := "alice@example.com", full_name := "Alice A",
    bio := none, profile_image_url := none, created_at := 0, updated_at := 0 }

/-- Demo user 2 for concrete witnesses. -/
def demoU2 : UserRow :=
  { id := 2, username := "bob", email := "bob@example.com", full_name := "Bob B",
    bio := none, profile_image_url := none, created_at := 0, updated_at := 0 }

/-- Demo users table. -/
def demoUsers : List UserRow := [demoU1, demoU2]

/-- Demo pending edge 1 → 2. -/
def demoEdge : FriendshipRow :=
  { id := 10, requester_id := 1, addressee_id := 2, status := .pending,
    created_at := 5, updated_at := 5 }

/-- Demo accepted edge 1 → 2. -/
def demoAccEdge : FriendshipRow :=
  { id := 20, requester_id := 1, addressee_id := 2, status := .accepted,
    created_at := 0, updated_at := 0 }

/-- Demo accepted edge 2 → 1 (the reverse direction of `demoAccEdge`,
a store state that violates the unordered-pair uniqueness invariant). -/
def demoAccEdgeRev : FriendshipRow :=
  { id := 21, requester_id := 2, addressee_id := 1, status := .accepted,
    created_at := 0, updated_at := 0 }

/-- Demo venue at the origin. -/
def demoVenue : VenueRow :=
  { id := 1, name := "A", address := "1 Origin Way", latitude := 0, longitude := 0,
    category := "cafe", description := none, phone := none, website := none,
    created_by := 1, created_at := 0, updated_at := 0 }

/-- Second demo venue at the origin (same coordinates, different id). -/
def demoVenue2 : VenueRow :=
  { id := 2, name := "B", address := "2 Origin Way", latitude := 0, longitude := 0,
    category := "bar", description := none, phone := none, website := none,
    created_by := 1, created_at := 0, updated_at := 0 }

/-- Demo venue at the north pole (latitude 90). -/
def demoVenuePole : VenueRow :=
  { id := 3, name := "Pole", address := "North Pole", latitude := 90, longitude := 0,
    category := "landmark", description := none, phone := none, website := none,
    created_by := 1, created_at := 0, updated_at := 0 }

/-- Demo check-in of user 2 at `demoVenue`. -/
def demoCheckin : CheckinRow :=
  { id := 1, user_id := 2, venue_id := 1, message := some "hi", created_at := 3 }

/-- Demo search input at the origin with no filters. -/
def demoSearchInput : SearchVenuesInput :=
  { latitude := 0, longitude := 0, radius := none, category := none, query := none }

/-- Search input at the origin whose text query is the single `LIKE`
wildcard `_`. -/
def wildcardSearchInput : SearchVenuesInput :=
  { latitude := 0, longitude := 0, radius := none, category := none, query := some "_" }

/-- Search input at the origin with an explicit large radius. -/
def wideSearchInput : SearchVenuesInput :=
  { latitude := 0, longitude := 0, radius := some 20000, category := none, query := none }

theorem connectsPair_comm (f : FriendshipRow) (r a : Int) :
    connectsPair f a r = connectsPair f r a := by
  simp [connectsPair, Bool.or_comm]

theorem length_filter_or_eq (users : List UserRow) (r a : Int) (hra : r ≠ a)
    (hnd : (users.map UserRow.id).Nodup) :
    (users.filter (fun u => u.id = r || u.id = a)).length =
      (if ∃ u ∈ users, u.id = r then 1 else 0) +
        (if ∃ u ∈ users, u.id = a then 1 else 0) := by
  induction users with
  | nil => simp
  | cons u us ih =>
    simp only [List.map_cons, List.nodup_cons] at hnd
    obtain ⟨hnotin, hnd2⟩ := hnd
    have ihe := ih hnd2
    rw [List.filter_cons]
    by_cases hr : u.id = r
    · have hnotr : ¬ ∃ x ∈ us, x.id = r := by
        rintro ⟨x, hx, hxr⟩
        exact hnotin (List.mem_map.mpr ⟨x, hx, by rw [hxr, hr]⟩)
      have hna : ¬ (u.id = a) := by rw [hr]; exact hra
      have hcond : (u.id = r || u.id = a) = true := by simp [hr]
      rw [if_pos hcond, List.length_cons, ihe, if_neg hnotr,
        if_pos (show ∃ x ∈ u :: us, x.id = r from ⟨u, List.mem_cons_self u us, hr⟩)]
      have hEa : (∃ x ∈ u :: us, x.id = a) ↔ (∃ x ∈ us, x.id = a) := by
        constructor
        · rintro ⟨x, hx, hxa⟩
          rcases List.mem_cons.mp hx with rfl | hx2
          · exact absurd hxa hna
          · exact ⟨x, hx2, hxa⟩
        · rintro ⟨x, hx, hxa⟩
          exact ⟨x, List.mem_cons_of_mem u hx, hxa⟩
      rw [if_congr hEa rfl rfl]
      omega
    · by_cases ha : u.id = a
      · have hnota : ¬ ∃ x ∈ us, x.id = a := by
          rintro ⟨x, hx, hxa⟩
          exact hnotin (List.mem_map.mpr ⟨x, hx, by rw [hxa, ha]⟩)
        have hcond : (u.id = r || u.id = a) = true := by simp [ha]
        rw [if_pos hcond, List.length_cons, ihe, if_neg hnota,
          if_pos (show ∃ x ∈ u :: us, x.id = a from ⟨u, List.mem_cons_self u us, ha⟩)]
        have hEr : (∃ x ∈ u :: us, x.id = r) ↔ (∃ x ∈ us, x.id = r) := by
          constructor
          · rintro ⟨x, hx, hxr⟩
            rcases List.mem_cons.mp hx with rfl | hx2
            · exact absurd hxr hr
            · exact ⟨x, hx2, hxr⟩
          · rintro ⟨x, hx, hxr⟩
            exact ⟨x, List.mem_cons_of_mem u hx, hxr⟩
        rw [if_congr hEr rfl rfl]
      · have hcond : ¬ ((u.id = r || u.id = a) = true) := by simp [hr, ha]
        rw [if_neg hcond, ihe]
        have hEr : (∃ x ∈ u :: us, x.id = r) ↔ (∃ x ∈ us, x.id = r) := by
          constructor
          · rintro ⟨x, hx, hxr⟩
            rcases List.mem_cons.mp hx with rfl | hx2
            · exact absurd hxr hr
            · exact ⟨x, hx2, hxr⟩
          · rintro ⟨x, hx, hxr⟩
            exact ⟨x, List.mem_cons_of_mem u hx, hxr⟩
        have hEa : (∃ x ∈ u :: us, x.id = a) ↔ (∃ x ∈ us, x.id = a) := by
          constructor
          · rintro ⟨x, hx, hxa⟩
            rcases List.mem_cons.mp hx with rfl | hx2
            · exact absurd hxa ha
            · exact ⟨x, hx2, hxa⟩
          · rintro ⟨x, hx, hxa⟩
            exact ⟨x, List.mem_cons_of_mem u hx, hxa⟩
        rw [if_congr hEr rfl rfl, if_congr hEa rfl rfl]

theorem length_filter_or_iff (users : List UserRow) (r a : Int) (hra : r ≠ a)
    (hnd : (users.map UserRow.id).Nodup) :
    (users.filter (fun u => u.id = r || u.id = a)).length = 2 ↔
      ((∃ u ∈ users, u.id = r) ∧ ∃ u ∈ users, u.id = a) := by
  rw [length_filter_or_eq users r a hra hnd]
  by_cases h1 : ∃ u ∈ users, u.id = r <;> by_cases h2 : ∃ u ∈ users, u.id = a <;>
    simp [h1, h2]

/-- C2: `createFriendship` validates in order: self-request first (even
before looking at the store), then user existence (both ids must
resolve, given the primary-key uniqueness of user ids), then the
duplicate check over the unordered pair in either direction and any
status; only then does it insert a single `pending` edge and return it.
After a success, re-creating in either direction fails with
`DuplicateEdge` against any store state still containing an edge for the
pair, whatever its status. -/
theorem C2_createFriendship_checks (users : List UserRow)
    (friendships : List FriendshipRow) (r a newId now : Int)
    (hnd : (users.map UserRow.id).Nodup) :
    (createFriendship users friendships r a newId now = .error .selfRequest ↔ r = a) ∧
    (r ≠ a →
      (createFriendship users friendships r a newId now = .error .userNotFound ↔
        ¬ ((∃ u ∈ users, u.id = r) ∧ ∃ u ∈ users, u.id = a))) ∧
    (r ≠ a → (∃ u ∈ users, u.id = r) → (∃ u ∈ users, u.id = a) →
      (createFriendship users friendships r a newId now = .error .duplicateEdge ↔
        ∃ f ∈ friendships, connectsPair f r a = true)) ∧
    (r ≠ a → (∃ u ∈ users, u.id = r) → (∃ u ∈ users, u.id = a) →
      (∀ f ∈ friendships, connectsPair f r a = false) →
      createFriendship users friendships r a newId now =
        .ok (pendingEdge newId r a now, friendships ++ [pendingEdge newId r a now])) ∧
    (∀ (fs2 : List FriendshipRow) (i2 n2 : Int), r ≠ a →
      (∃ u ∈ users, u.id = r) → (∃ u ∈ users, u.id = a) →
      (∃ f ∈ fs2, connectsPair f r a = true) →
      createFriendship users fs2 r a i2 n2 = .error .duplicateEdge ∧
        createFriendship users fs2 a r i2 n2 = .error .duplicateEdge) := by
  have key : ∀ (fs2 : List FriendshipRow) (r2 a2 i2 n2 : Int), r2 ≠ a2 →
      (∃ u ∈ users, u.id = r2) → (∃ u ∈ users, u.id = a2) →
      (createFriendship users fs2 r2 a2 i2 n2 = .error .duplicateEdge ↔
        ∃ f ∈ fs2, connectsPair f r2 a2 = true) := by
    intro fs2 r2 a2 i2 n2 hra hr ha
    have hlen : ¬ ((users.filter (fun u => u.id = r2 || u.id = a2)).length ≠ 2) :=
      not_not.mpr ((length_filter_or_iff users r2 a2 hra hnd).mpr ⟨hr, ha⟩)
    simp only [createFriendship, if_neg hra, if_neg hlen]
    by_cases hdup : ∃ f ∈ fs2, connectsPair f r2 a2 = true
    · obtain ⟨f, hf, hcp⟩ := hdup
      have hpos : 0 < (fs2.filter (fun f => connectsPair f r2 a2)).length :=
        List.length_pos_iff_exists_mem.mpr ⟨f, List.mem_filter.mpr ⟨hf, hcp⟩⟩
      simp only [if_pos hpos]
      exact ⟨fun _ => ⟨f, hf, hcp⟩, fun _ => trivial⟩
    · have hnil : fs2.filter (fun f => connectsPair f r2 a2) = [] := by
        rw [List.filter_eq_nil]
        intro f hf hcp
        exact hdup ⟨f, hf, hcp⟩
      simp only [hnil]
      simp only [List.length_nil, gt_iff_lt, lt_irrefl, if_false]
      constructor
      · intro h
        exact absurd h (by simp)
      · intro h
        exact absurd h hdup
  refine ⟨?_, ?_, ?_, ?_, ?_⟩
  · by_cases hra : r = a
    · simp [createFriendship, hra]
    · simp only [createFriendship, if_neg hra]
      constructor
      · intro h
        split_ifs at h <;> simp_all
      · intro h
        exact absurd h hra
  · intro hra
    have hlen := length_filter_or_iff users r a hra hnd
    simp only [createFriendship, if_neg hra]
    by_cases h2 : (users.filter (fun u => u.id = r || u.id = a)).length ≠ 2
    · simp only [if_pos h2]
      have : ¬ ((∃ u ∈ users, u.id = r) ∧ ∃ u ∈ users, u.id = a) := fun hc =>
        h2 (hlen.mpr hc)
      exact ⟨fun _ => this, fun _ => trivial⟩
    · simp only [if_neg h2]
      have hboth : (∃ u ∈ users, u.id = r) ∧ ∃ u ∈ users, u.id = a :=
        hlen.mp (not_not.mp h2)
      constructor
      · intro h
        split_ifs at h <;> simp_all
      · intro h
        exact absurd hboth h
  · intro hra hr ha
    exact key friendships r a newId now hra hr ha
  · intro hra hr ha hnone
    have hlen : ¬ ((users.filter (fun u => u.id = r || u.id = a)).length ≠ 2) :=
      not_not.mpr ((length_filter_or_iff users r a hra hnd).mpr ⟨hr, ha⟩)
    have hnil : friendships.filter (fun f => connectsPair f r a) = [] := by
      rw [List.filter_eq_nil]
      intro f hf hcp
      exact absurd (hnone f hf) (by simp [hcp])
    simp only [createFriendship, if_neg hra, if_neg hlen, hnil]
    simp
  · intro fs2 i2 n2 hra hr ha hdup
    refine ⟨(key fs2 r a i2 n2 hra hr ha).mpr hdup, ?_⟩
    have hdup2 : ∃ f ∈ fs2, connectsPair f a r = true := by
      obtain ⟨f, hf, hcp⟩ := hdup
      exact ⟨f, hf, by rw [connectsPair_comm]; exact hcp⟩
    exact (key fs2 a r i2 n2 (Ne.symm hra) ha hr).mpr hdup2

/-- C2 witness: with the concrete two-user store, creating 1 → 2
succeeds with a pending edge, and afterwards both directions fail with
`DuplicateEdge`. -/
theorem C2_createFriendship_checks_witness :
    (demoUsers.map UserRow.id).Nodup ∧
    createFriendship demoUsers [] 1 2 10 5 = .ok (demoEdge, [demoEdge]) ∧
    createFriendship demoUsers [demoEdge] 1 2 11 6 = .error .duplicateEdge ∧
    createFriendship demoUsers [demoEdge] 2 1 11 6 = .error .duplicateEdge := by
  have h := C2_createFriendship_checks demoUsers [] 1 2 10 5 (by decide)
  refine ⟨by decide, ?_, ?_⟩
  · exact h.2.2.2.1 (by decide) ⟨demoU1, by decide, by decide⟩
      ⟨demoU2, by decide, by decide⟩ (by intro f hf; cases hf)
  · have h5 := h.2.2.2.2 [demoEdge] 11 6 (by decide) ⟨demoU1, by decide, by decide⟩
      ⟨demoU2, by decide, by decide⟩ ⟨demoEdge, by decide, by decide⟩
    exact ⟨h5.1, h5.2⟩

theorem find?_id_eq_some_of_nodup (fs : List FriendshipRow) (f : FriendshipRow)
    (hnd : (fs.map FriendshipRow.id).Nodup) (hf : f ∈ fs) :
    fs.find? (fun g => g.id = f.id) = some f := by
  induction fs with
  | nil => cases hf
  | cons g gs ih =>
    simp only [List.map_cons, List.nodup_cons] at hnd
    obtain ⟨hnotin, hnd2⟩ := hnd
    rcases List.mem_cons.mp hf with heq | hmem
    · subst heq
      exact List.find?_cons_of_pos _ (by simp)
    · have hne : ¬ ((g.id = f.id : Bool) = true) := by
        simp only [decide_eq_true_eq]
        intro h
        exact hnotin (h ▸ List.mem_map.mpr ⟨f, hmem, rfl⟩)
      have hstep : List.find? (fun g => decide (g.id = f.id)) (g :: gs) =
          List.find? (fun g => decide (g.id = f.id)) gs :=
        List.find?_cons_of_neg gs hne
      rw [hstep]
      exact ih hnd2 hmem

theorem friendship_eq_of_id_eq {fs : List FriendshipRow}
    (hnd : (fs.map FriendshipRow.id).Nodup) {f g : FriendshipRow}
    (hf : f ∈ fs) (hg : g ∈ fs) (h : f.id = g.id) : f = g :=
  List.inj_on_of_nodup_map hnd hf hg h

/-- C3: `updateFriendship` fails with `NotFound` exactly when no edge
has the given id; on a blocked edge it fails with `BlockedImmutable`
and a blocked edge survives every `updateFriendship` call unchanged;
otherwise it sets the status to the requested one and refreshes
`updated_at`, returning the updated record; and no requested status
maps to `pending`, so an edge can never re-enter `pending` via update. -/
theorem C3_updateFriendship_checks (fs : List FriendshipRow) (fid : Int)
    (s : UpdateStatus) (now : Int)
    (hnd : (fs.map FriendshipRow.id).Nodup) :
    (updateFriendship fs fid s now = .error .notFound ↔ ∀ f ∈ fs, f.id ≠ fid) ∧
    (∀ f ∈ fs, f.id = fid → f.status = .blocked →
      updateFriendship fs fid s now = .error .blockedImmutable) ∧
    (∀ f ∈ fs, f.id = fid → f.status ≠ .blocked →
      updateFriendship fs fid s now =
        .ok (applyStatus s now f,
          fs.map (fun g => if g.id = fid then applyStatus s now g else g))) ∧
    (∀ f ∈ fs, f.status = .blocked →
      ∀ (fid2 : Int) (s2 : UpdateStatus) (now2 : Int) (row : FriendshipRow)
        (fs2 : List FriendshipRow),
      updateFriendship fs fid2 s2 now2 = .ok (row, fs2) → f ∈ fs2) ∧
    (∀ s2 : UpdateStatus, s2.toStatus ≠ .pending) := by
  refine ⟨?_, ?_, ?_, ?_, ?_⟩
  · cases hfind : fs.find? (fun f => f.id = fid) with
    | none =>
      have hall := List.find?_eq_none.mp hfind
      simp only [updateFriendship, hfind]
      exact ⟨fun _ f hf => by simpa using hall f hf, fun _ => trivial⟩
    | some f =>
      have hmem := List.mem_of_find?_eq_some hfind
      have hid : f.id = fid := by simpa using List.find?_some hfind
      simp only [updateFriendship, hfind]
      constructor
      · intro h
        split_ifs at h <;> simp_all
      · intro hall
        exact absurd hid (hall f hmem)
  · intro f hf hid hblk
    have hfind : fs.find? (fun g => g.id = fid) = some f := by
      rw [← hid]
      exact find?_id_eq_some_of_nodup fs f hnd hf
    simp only [updateFriendship, hfind, if_pos hblk]
  · intro f hf hid hblk
    have hfind : fs.find? (fun g => g.id = fid) = some f := by
      rw [← hid]
      exact find?_id_eq_some_of_nodup fs f hnd hf
    simp only [updateFriendship, hfind, if_neg hblk]
  · intro f hf hblk fid2 s2 now2 row fs2 hok
    cases hfind : fs.find? (fun g => g.id = fid2) with
    | none => simp [updateFriendship, hfind] at hok
    | some g =>
      have hgmem := List.mem_of_find?_eq_some hfind
      have hgid : g.id = fid2 := by simpa using List.find?_some hfind
      by_cases hgblk : g.status = FriendshipStatus.blocked
      · simp [updateFriendship, hfind, hgblk] at hok
      · simp only [updateFriendship, hfind, if_neg hgblk, Except.ok.injEq,
          Prod.mk.injEq] at hok
        have hne : ¬ (f.id = fid2) := by
          intro h
          exact hgblk ((friendship_eq_of_id_eq hnd hgmem hf (hgid.trans h.symm)) ▸ hblk)
        rw [← hok.2]
        exact List.mem_map.mpr ⟨f, hf, by rw [if_neg (by simpa using hne)]⟩
  · intro s2
    cases s2 <;> simp [UpdateStatus.toStatus]

/-- C3 witness: on a one-edge store, updating the pending edge to
`accepted` succeeds, refreshing the status and `updated_at`. -/
theorem C3_updateFriendship_checks_witness :
    ([demoEdge].map FriendshipRow.id).Nodup ∧
    updateFriendship [demoEdge] 10 .accepted 6 =
      .ok ({ demoEdge with status := .accepted, updated_at := 6 },
        [{ demoEdge with status := .accepted, updated_at := 6 }]) := by
  have h := (C3_updateFriendship_checks [demoEdge] 10 UpdateStatus.accepted 6
    (by decide)).2.2.1 demoEdge (by decide) (by decide) (by decide)
  exact ⟨by decide, h⟩

/-- C4 counterexample: the claim says the transition accepted →
rejected is rejected by `updateFriendship`, but on a store holding one
accepted edge the call succeeds and rewrites the status to `rejected`. -/
theorem C4_transitions_counterexample :
    updateFriendship [demoAccEdge] 20 .rejected 9 =
      .ok ({ demoAccEdge with status := .rejected, updated_at := 9 },
        [{ demoAccEdge with status := .rejected, updated_at := 9 }]) := by
  rfl

/-- C4 amended: the only transition guard in `updateFriendship` is on
the current status being `blocked`: for an edge present in the store,
the update succeeds exactly when the edge is not blocked — whatever the
requested status among accepted/rejected/blocked, so accepted →
rejected and rejected → blocked are also permitted and every transition
out of blocked (including blocked → accepted) is rejected — and on
success the new status is exactly the requested one; `pending` is never
a reachable target. -/
theorem C4_transitions_amended (fs : List FriendshipRow) (s : UpdateStatus)
    (now : Int) (hnd : (fs.map FriendshipRow.id).Nodup)
    (f : FriendshipRow) (hf : f ∈ fs) :
    ((∃ row fs2, updateFriendship fs f.id s now = Except.ok (row, fs2)) ↔
      f.status ≠ .blocked) ∧
    (∀ row fs2, updateFriendship fs f.id s now = Except.ok (row, fs2) →
      row.status = s.toStatus ∧ row.id = f.id) ∧
    s.toStatus ≠ .pending := by
  have hfind : fs.find? (fun g => g.id = f.id) = some f :=
    find?_id_eq_some_of_nodup fs f hnd hf
  refine ⟨?_, ?_, ?_⟩
  · constructor
    · rintro ⟨row, fs2, hok⟩ hblk
      simp [updateFriendship, hfind, hblk] at hok
    · intro hblk
      refine ⟨applyStatus s now f,
        fs.map (fun g => if g.id = f.id then applyStatus s now g else g), ?_⟩
      simp only [updateFriendship, hfind, if_neg hblk]
  · intro row fs2 hok
    by_cases hblk : f.status = FriendshipStatus.blocked
    · simp [updateFriendship, hfind, hblk] at hok
    · simp only [updateFriendship, hfind, if_neg hblk, Except.ok.injEq,
        Prod.mk.injEq] at hok
      obtain ⟨h1, h2⟩ := hok
      subst h1
      exact ⟨rfl, rfl⟩
  · cases s <;> simp [UpdateStatus.toStatus]

/-- C4 witness: on the one-edge accepted store, the amended
characterization applied concretely — the update to `rejected`
succeeds because the edge is not blocked. -/
theorem C4_transitions_amended_witness :
    ([demoAccEdge].map FriendshipRow.id).Nodup ∧ demoAccEdge ∈ [demoAccEdge] ∧
    ((∃ row fs2, updateFriendship [demoAccEdge] demoAccEdge.id UpdateStatus.rejected 9 =
        Except.ok (row, fs2)) ↔ demoAccEdge.status ≠ .blocked) := by
  exact ⟨by decide, by decide,
    (C4_transitions_amended [demoAccEdge] UpdateStatus.rejected 9 (by decide)
      demoAccEdge (by decide)).1⟩

theorem getUserFriends_eq (users : List UserRow) (friendships : List FriendshipRow)
    (userId : Int) :
    getUserFriends users friendships userId =
      (friendships.filter (fun f => f.status = FriendshipStatus.accepted)).flatMap
        (fun f => (users.filter (fun u => friendJoinCond f u userId)).map
          UserRow.toOut) := by
  induction friendships with
  | nil => rfl
  | cons f fs ih =>
    simp only [getUserFriends] at ih ⊢
    rw [List.flatMap_cons, List.filter_append, List.map_append, List.map_append,
      List.filter_cons]
    by_cases hacc : f.status = FriendshipStatus.accepted
    · rw [if_pos (by simpa using hacc), List.flatMap_cons, ih]
      congr 1
      rw [List.filter_map]
      have hconst : ((fun p : FriendshipRow × UserRow =>
          decide (p.1.status = FriendshipStatus.accepted)) ∘
          (fun u : UserRow => (f, u))) = fun _ : UserRow => true := by
        funext u
        simp [hacc]
      rw [hconst, List.filter_true, List.map_map, List.map_map]
      rfl
    · rw [if_neg (by simpa using hacc), ih]
      have hnil : List.filter (fun p => decide (p.1.status = FriendshipStatus.accepted))
          ((users.filter (fun u => friendJoinCond f u userId)).map (fun u => (f, u))) =
          [] := by
        rw [List.filter_map]
        have hconst : ((fun p : FriendshipRow × UserRow =>
            decide (p.1.status = FriendshipStatus.accepted)) ∘
            (fun u : UserRow => (f, u))) = fun _ : UserRow => false := by
          funext u
          simp [hacc]
        rw [hconst]
        simp
      rw [hnil]
      rfl

theorem mem_getUserFriends_iff (users : List UserRow)
    (friendships : List FriendshipRow) (userId : Int) (x : UserOut) :
    x ∈ getUserFriends users friendships userId ↔
      ∃ f ∈ friendships, f.status = FriendshipStatus.accepted ∧
        ∃ u ∈ users, friendJoinCond f u userId = true ∧ x = u.toOut := by
  rw [getUserFriends_eq]
  simp only [List.mem_flatMap, List.mem_filter, List.mem_map, decide_eq_true_eq]
  constructor
  · rintro ⟨f, ⟨hf, hacc⟩, u, ⟨hu, hcond⟩, rfl⟩
    exact ⟨f, hf, hacc, u, hu, hcond, rfl⟩
  · rintro ⟨f, hf, hacc, u, hu, hcond, rfl⟩
    exact ⟨f, ⟨hf, hacc⟩, u, ⟨hu, hcond⟩, rfl⟩

/-- C1: friend resolution is symmetric — for distinct users `A`, `B`
both present in the store and an accepted edge connecting them in
either role, `getUserFriends A.id` contains `B` and
`getUserFriends B.id` contains `A`. -/
theorem C1_getUserFriends_symmetric (users : List UserRow)
    (friendships : List FriendshipRow) (A B : UserRow) (f : FriendshipRow)
    (hA : A ∈ users) (hB : B ∈ users) (hAB : A.id ≠ B.id)
    (hf : f ∈ friendships) (hacc : f.status = FriendshipStatus.accepted)
    (hconn : (f.requester_id = A.id ∧ f.addressee_id = B.id) ∨
      (f.requester_id = B.id ∧ f.addressee_id = A.id)) :
    B.id ∈ (getUserFriends users friendships A.id).map UserOut.id ∧
      A.id ∈ (getUserFriends users friendships B.id).map UserOut.id := by
  constructor
  · refine List.mem_map.mpr ⟨B.toOut, ?_, rfl⟩
    refine (mem_getUserFriends_iff users friendships A.id B.toOut).mpr
      ⟨f, hf, hacc, B, hB, ?_, rfl⟩
    rcases hconn with ⟨h1, h2⟩ | ⟨h1, h2⟩
    · simp [friendJoinCond, h1, h2]
    · simp [friendJoinCond, h1, h2]
  · refine List.mem_map.mpr ⟨A.toOut, ?_, rfl⟩
    refine (mem_getUserFriends_iff users friendships B.id A.toOut).mpr
      ⟨f, hf, hacc, A, hA, ?_, rfl⟩
    rcases hconn with ⟨h1, h2⟩ | ⟨h1, h2⟩
    · simp [friendJoinCond, h1, h2]
    · simp [friendJoinCond, h1, h2]

/-- C1 witness: with users 1 and 2 and the accepted edge 1 → 2, each
appears in the other's friend list. -/
theorem C1_getUserFriends_symmetric_witness :
    demoU1 ∈ demoUsers ∧ demoAccEdge.status = FriendshipStatus.accepted ∧
    (demoU2.id ∈ (getUserFriends demoUsers [demoAccEdge] demoU1.id).map UserOut.id ∧
      demoU1.id ∈ (getUserFriends demoUsers [demoAccEdge] demoU2.id).map UserOut.id) := by
  exact ⟨by decide, by decide,
    C1_getUserFriends_symmetric demoUsers [demoAccEdge] demoU1 demoU2 demoAccEdge
      (by decide) (by decide) (by decide) (by decide) (by decide)
      (Or.inl ⟨by decide, by decide⟩)⟩

theorem friendJoinCond_peer {f : FriendshipRow} {u : UserRow} {userId : Int}
    (h : friendJoinCond f u userId = true) :
    u.id = (if f.requester_id = userId then f.addressee_id else f.requester_id) ∧
      (f.requester_id = userId ∨ f.addressee_id = userId) := by
  simp only [friendJoinCond, Bool.or_eq_true, Bool.and_eq_true, decide_eq_true_eq] at h
  rcases h with ⟨h1, h2⟩ | ⟨h1, h2⟩
  · exact ⟨by rw [if_pos h1]; exact h2, Or.inl h1⟩
  · by_cases hr : f.requester_id = userId
    · refine ⟨?_, Or.inr h1⟩
      rw [if_pos hr, h2, hr]
      exact h1.symm
    · exact ⟨by rw [if_neg hr]; exact h2, Or.inr h1⟩

theorem pairEq_of_conds {f g : FriendshipRow} {u v : UserRow} {userId : Int}
    (hf : friendJoinCond f u userId = true) (hg : friendJoinCond g v userId = true)
    (huv : u.id = v.id) : pairEq f g := by
  obtain ⟨hup, hft⟩ := friendJoinCond_peer hf
  obtain ⟨hvp, hgt⟩ := friendJoinCond_peer hg
  have hpeer : (if f.requester_id = userId then f.addressee_id else f.requester_id) =
      (if g.requester_id = userId then g.addressee_id else g.requester_id) :=
    hup.symm.trans (huv.trans hvp)
  by_cases h1 : f.requester_id = userId <;> by_cases h2 : g.requester_id = userId
  · rw [if_pos h1, if_pos h2] at hpeer
    exact Or.inl ⟨h1.trans h2.symm, hpeer⟩
  · rw [if_pos h1, if_neg h2] at hpeer
    have hga : g.addressee_id = userId := hgt.resolve_left h2
    exact Or.inr ⟨h1.trans hga.symm, hpeer⟩
  · rw [if_neg h1, if_pos h2] at hpeer
    have hfa : f.addressee_id = userId := hft.resolve_left h1
    exact Or.inr ⟨hpeer, hfa.trans h2.symm⟩
  · rw [if_neg h1, if_neg h2] at hpeer
    have hfa : f.addressee_id = userId := hft.resolve_left h1
    have hga : g.addressee_id = userId := hgt.resolve_left h2
    exact Or.inl ⟨hpeer, hfa.trans hga.symm⟩

/-- C9 counterexample: `getUserFriends` performs no deduplication — on
a store holding accepted edges for the pair {1, 2} in both directions
(a state the uniqueness invariant forbids but the resolver accepts),
user 2 appears twice in `getUserFriends 1`. -/
theorem C9_dedup_counterexample :
    ¬ ((getUserFriends demoUsers [demoAccEdge, demoAccEdgeRev] 1).map
        UserOut.id).Nodup := by
  decide

/-- C9 amended: provided user ids are unique and the store respects the
unordered-pair uniqueness invariant (at most one edge per pair, which
`createFriendship` maintains), `getUserFriends` returns no user twice;
unconditionally, every returned element is exactly the projection of a
user row to the user columns (id, username, email, full name, bio,
avatar URL, timestamps), with no friendship metadata attached. -/
theorem C9_dedup_amended (users : List UserRow) (friendships : List FriendshipRow)
    (userId : Int) (hU : (users.map UserRow.id).Nodup)
    (hP : friendships.Pairwise (fun f g => ¬ pairEq f g)) :
    ((getUserFriends users friendships userId).map UserOut.id).Nodup ∧
    ∀ x ∈ getUserFriends users friendships userId, ∃ u ∈ users, x = u.toOut := by
  constructor
  · rw [getUserFriends_eq, List.map_flatMap]
    simp only [List.map_map]
    have hcomp : (UserOut.id ∘ UserRow.toOut) = UserRow.id := rfl
    rw [hcomp, List.nodup_flatMap]
    constructor
    · intro f _
      refine List.Nodup.map_on ?_ ((hU.of_map).filter _)
      intro x hx y hy hxy
      exact List.inj_on_of_nodup_map hU (List.mem_of_mem_filter hx)
        (List.mem_of_mem_filter hy) hxy
    · refine List.Pairwise.imp ?_ (hP.filter _)
      intro f g hne
      intro x hxf hxg
      obtain ⟨u, hu, hux⟩ := List.mem_map.mp hxf
      obtain ⟨v, hv, hvx⟩ := List.mem_map.mp hxg
      exact absurd (pairEq_of_conds (List.mem_filter.mp hu).2
        (List.mem_filter.mp hv).2 (hux.trans hvx.symm)) hne
  · intro x hx
    obtain ⟨f, _, _, u, hu, _, rfl⟩ :=
      (mem_getUserFriends_iff users friendships userId x).mp hx
    exact ⟨u, hu, rfl⟩

/-- C9 witness: on a store with a single accepted edge the returned id
list is duplicate-free. -/
theorem C9_dedup_amended_witness :
    (demoUsers.map UserRow.id).Nodup ∧
    ((getUserFriends demoUsers [demoAccEdge] 1).map UserOut.id).Nodup :=
  ⟨by decide, (C9_dedup_amended demoUsers [demoAccEdge] 1 (by decide) (by decide)).1⟩

theorem mem_feedRows_iff (users : List UserRow) (venues : List VenueRow)
    (friendships : List FriendshipRow) (checkins : List CheckinRow)
    (userId : Int) (x : ActivityFeedItem) :
    x ∈ feedRows users venues friendships checkins userId ↔
      ∃ c ∈ checkins, ∃ u ∈ users, ∃ v ∈ venues, ∃ f ∈ friendships,
        c.user_id = u.id ∧ c.venue_id = v.id ∧ feedJoinCond f c userId = true ∧
        f.status = FriendshipStatus.accepted ∧ x = feedItem c u v := by
  simp only [feedRows, List.mem_map, List.mem_filter, List.mem_flatMap,
    decide_eq_true_eq]
  constructor
  · rintro ⟨q, ⟨⟨c, hc, u, ⟨hu1, hu2⟩, v, ⟨hv1, hv2⟩, f, ⟨hf1, hf2⟩, rfl⟩, hacc⟩, rfl⟩
    exact ⟨c, hc, u, hu1, v, hv1, f, hf1, hu2, hv2, hf2, hacc, rfl⟩
  · rintro ⟨c, hc, u, hu, v, hv, f, hf, hcu, hcv, hcond, hacc, rfl⟩
    exact ⟨(c, u, v, f),
      ⟨⟨c, hc, u, ⟨hu, hcu⟩, v, ⟨hv, hcv⟩, f, ⟨hf, hcond⟩, rfl⟩, hacc⟩, rfl⟩

theorem demoFeedResult :
    FeedResult demoUsers [demoVenue] [demoAccEdge] [demoCheckin] 1 none
      [feedItem demoCheckin demoU2 demoVenue] := by
  refine ⟨[feedItem demoCheckin demoU2 demoVenue], ?_, ?_, rfl⟩
  · rw [show feedRows demoUsers [demoVenue] [demoAccEdge] [demoCheckin] 1 =
      [feedItem demoCheckin demoU2 demoVenue] from by decide]
  · exact List.pairwise_singleton _ _

/-- C5: any possible result of `getActivityFeed` contains only
check-ins authored by accepted friends of the user, is ordered by
check-in creation time descending, and has at most `limit` (default 20)
items; a user with no accepted friendships gets the empty feed; and
every check-in whose author is an accepted friend (with resolvable
author and venue rows) appears in the query's row set before
truncation. -/
theorem C5_feed_contract (users : List UserRow) (venues : List VenueRow)
    (friendships : List FriendshipRow) (checkins : List CheckinRow)
    (userId : Int) (limit : Option Nat) (out : List ActivityFeedItem)
    (hout : FeedResult users venues friendships checkins userId limit out) :
    (∀ item ∈ out, ∃ c ∈ checkins, ∃ f ∈ friendships,
      f.status = FriendshipStatus.accepted ∧ feedJoinCond f c userId = true ∧
      item.id = c.id ∧ item.user_id = c.user_id ∧ item.created_at = c.created_at) ∧
    out.Pairwise (fun a b => b.created_at ≤ a.created_at) ∧
    out.length ≤ limit.getD 20 ∧
    ((∀ f ∈ friendships, f.status = FriendshipStatus.accepted →
        f.requester_id ≠ userId ∧ f.addressee_id ≠ userId) → out = []) ∧
    (∀ c ∈ checkins, ∀ u ∈ users, ∀ v ∈ venues,
      c.user_id = u.id → c.venue_id = v.id →
      (∃ f ∈ friendships, f.status = FriendshipStatus.accepted ∧
        feedJoinCond f c userId = true) →
      feedItem c u v ∈ feedRows users venues friendships checkins userId) := by
  obtain ⟨sorted, hperm, hsort, hout_eq⟩ := hout
  refine ⟨?_, ?_, ?_, ?_, ?_⟩
  · intro item hitem
    have hmem : item ∈ feedRows users venues friendships checkins userId :=
      hperm.mem_iff.mp (List.mem_of_mem_take (hout_eq ▸ hitem))
    obtain ⟨c, hc, u, _, v, _, f, hf, _, _, hcond, hacc, heq⟩ :=
      (mem_feedRows_iff users venues friendships checkins userId item).mp hmem
    exact ⟨c, hc, f, hf, hacc, hcond, by rw [heq]; rfl, by rw [heq]; rfl,
      by rw [heq]; rfl⟩
  · rw [hout_eq]
    exact List.Pairwise.sublist (List.take_sublist _ _) hsort
  · rw [hout_eq]
    exact List.length_take_le _ _
  · intro hnone
    have hnil : feedRows users venues friendships checkins userId = [] := by
      rw [List.eq_nil_iff_forall_not_mem]
      intro x hx
      obtain ⟨c, _, u, _, v, _, f, hf, _, _, hcond, hacc, _⟩ :=
        (mem_feedRows_iff users venues friendships checkins userId x).mp hx
      obtain ⟨hr, ha⟩ := hnone f hf hacc
      simp only [feedJoinCond, Bool.or_eq_true, Bool.and_eq_true,
        decide_eq_true_eq] at hcond
      rcases hcond with ⟨_, h⟩ | ⟨h, _⟩
      · exact ha h
      · exact hr h
    rw [hnil] at hperm
    rw [hout_eq, hperm.eq_nil]
    exact List.take_nil
  · intro c hc u hu v hv hcu hcv hex
    obtain ⟨f, hf, hacc, hcond⟩ := hex
    exact (mem_feedRows_iff users venues friendships checkins userId
      (feedItem c u v)).mpr ⟨c, hc, u, hu, v, hv, f, hf, hcu, hcv, hcond, hacc, rfl⟩

/-- C5 witness: the concrete one-friend store produces the single-item
feed, which satisfies the contract. -/
theorem C5_feed_contract_witness :
    FeedResult demoUsers [demoVenue] [demoAccEdge] [demoCheckin] 1 none
      [feedItem demoCheckin demoU2 demoVenue] ∧
    [feedItem demoCheckin demoU2 demoVenue].length ≤ 20 :=
  ⟨demoFeedResult,
    (C5_feed_contract demoUsers [demoVenue] [demoAccEdge] [demoCheckin] 1 none
      [feedItem demoCheckin demoU2 demoVenue] demoFeedResult).2.2.1⟩

/-- C10: when the store contains no self-loop edge (the invariant
`createFriendship` maintains by rejecting self-requests before
inserting), no feed item returned for a user is authored by that user. -/
theorem C10_feed_excludes_self (users : List UserRow) (venues : List VenueRow)
    (friendships : List FriendshipRow) (checkins : List CheckinRow)
    (userId : Int) (limit : Option Nat) (out : List ActivityFeedItem)
    (hSelf : ∀ f ∈ friendships, f.requester_id ≠ f.addressee_id)
    (hout : FeedResult users venues friendships checkins userId limit out) :
    ∀ item ∈ out, item.user_id ≠ userId := by
  obtain ⟨sorted, hperm, _, hout_eq⟩ := hout
  intro item hitem heq
  have hmem : item ∈ feedRows users venues friendships checkins userId :=
    hperm.mem_iff.mp (List.mem_of_mem_take (hout_eq ▸ hitem))
  obtain ⟨c, _, u, _, v, _, f, hf, _, _, hcond, _, hitem_eq⟩ :=
    (mem_feedRows_iff users venues friendships checkins userId item).mp hmem
  have hcu : c.user_id = userId := by
    rw [← heq, hitem_eq]
    rfl
  simp only [feedJoinCond, Bool.or_eq_true, Bool.and_eq_true,
    decide_eq_true_eq] at hcond
  rcases hcond with ⟨h1, h2⟩ | ⟨h1, h2⟩
  · exact hSelf f hf (h1.trans (hcu.trans h2.symm))
  · exact hSelf f hf (h1.trans (h2.trans hcu).symm)

/-- C10 witness: on the concrete store (no self-loop edges), the
single feed item for user 1 is not authored by user 1. -/
theorem C10_feed_excludes_self_witness :
    (∀ f ∈ [demoAccEdge], f.requester_id ≠ f.addressee_id) ∧
    ∀ item ∈ [feedItem demoCheckin demoU2 demoVenue], item.user_id ≠ 1 :=
  ⟨by decide,
    C10_feed_excludes_self demoUsers [demoVenue] [demoAccEdge] [demoCheckin] 1 none
      [feedItem demoCheckin demoU2 demoVenue] (by decide) demoFeedResult⟩

theorem acosArg_same (lat lon : ℝ) : acosArg lat lon lat lon = 1 := by
  unfold acosArg
  rw [sub_self, Real.cos_zero, mul_one, ← Real.sin_sq_add_cos_sq (radians lat)]
  ring

theorem venueDistance_of_same_point (input : SearchVenuesInput) (v : VenueRow)
    (hlat : input.latitude = v.latitude) (hlon : input.longitude = v.longitude) :
    venueDistance input v = 0 := by
  unfold venueDistance
  rw [hlat, hlon, acosArg_same, Real.arccos_one, mul_zero]

theorem radians_cos_nonneg (lat : ℝ) (h1 : -90 ≤ lat) (h2 : lat ≤ 90) :
    0 ≤ Real.cos (radians lat) := by
  apply Real.cos_nonneg_of_mem_Icc
  unfold radians
  constructor
  · have hm := mul_le_mul_of_nonneg_right h1 Real.pi_pos.le
    simp only [neg_mul] at hm
    linarith
  · have hm := mul_le_mul_of_nonneg_right h2 Real.pi_pos.le
    linarith

theorem acosArg_le_one (qlat qlon vlat vlon : ℝ)
    (h1 : -90 ≤ qlat) (h2 : qlat ≤ 90) (h3 : -90 ≤ vlat) (h4 : vlat ≤ 90) :
    acosArg qlat qlon vlat vlon ≤ 1 := by
  have hA := radians_cos_nonneg qlat h1 h2
  have hB := radians_cos_nonneg vlat h3 h4
  have h5 : 0 ≤ Real.cos (radians qlat) * Real.cos (radians vlat) := mul_nonneg hA hB
  have h6 : Real.cos (radians qlat) * Real.cos (radians vlat) *
      Real.cos (radians vlon - radians qlon) ≤
        Real.cos (radians qlat) * Real.cos (radians vlat) :=
    mul_le_of_le_one_right h5 (Real.cos_le_one _)
  have h7 := Real.cos_le_one (radians qlat - radians vlat)
  rw [Real.cos_sub] at h7
  unfold acosArg
  linarith

theorem neg_one_le_acosArg (qlat qlon vlat vlon : ℝ)
    (h1 : -90 ≤ qlat) (h2 : qlat ≤ 90) (h3 : -90 ≤ vlat) (h4 : vlat ≤ 90) :
    -1 ≤ acosArg qlat qlon vlat vlon := by
  have hA := radians_cos_nonneg qlat h1 h2
  have hB := radians_cos_nonneg vlat h3 h4
  have h5 : 0 ≤ Real.cos (radians qlat) * Real.cos (radians vlat) := mul_nonneg hA hB
  have h6 := mul_le_mul_of_nonneg_left
    (Real.neg_one_le_cos (radians vlon - radians qlon)) h5
  have h7 := Real.cos_le_one (radians qlat + radians vlat)
  rw [Real.cos_add] at h7
  unfold acosArg
  nlinarith

/-- C7 (the code at the failing input): the handler passes the raw
sum-of-products to `acos` without any clamping, and at a query point
with the same coordinates as the venue — e.g. (40.7128, -74.0060) —
that unclamped argument equals exactly 1, the boundary of the domain
of `acos`, in exact arithmetic; any upward floating-point rounding
there leaves the domain and makes the database's `acos` raise an
out-of-range error, which the missing clamp was supposed to prevent. -/
theorem C7_acos_argument_at_boundary :
    acosArg 40.7128 (-74.0060) 40.7128 (-74.0060) = 1 :=
  acosArg_same 40.7128 (-74.0060)

theorem effectiveRadius_none (input : SearchVenuesInput) (h : input.radius = none) :
    effectiveRadius input = 10 := by
  unfold effectiveRadius
  rw [h]

theorem effectiveRadius_some (input : SearchVenuesInput) (r : ℝ)
    (h : input.radius = some r) (h0 : r ≠ 0) : effectiveRadius input = r := by
  unfold effectiveRadius
  rw [h]
  show (if r = 0 then (10:ℝ) else r) = r
  rw [if_neg h0]

theorem searchFilter_eq_self (input : SearchVenuesInput) (venues : List VenueRow)
    (h : ∀ v ∈ venues, qualifies input v) : searchFilter input venues = venues := by
  unfold searchFilter
  rw [List.filter_eq_self]
  intro v hv
  exact @decide_eq_true _ (Classical.propDecidable _) (h v hv)

theorem qualifies_demoVenue : qualifies demoSearchInput demoVenue := by
  refine ⟨?_, trivial, trivial⟩
  rw [venueDistance_of_same_point demoSearchInput demoVenue rfl rfl,
    effectiveRadius_none demoSearchInput rfl]
  norm_num

/-- C6 amended: a venue is in a possible `searchVenues` result exactly
when its haversine distance is within the effective radius (10 km when
the radius is omitted, boundary included) and the category condition
holds whenever a non-empty category is given (an empty category string
is falsy and skipped) and, whenever a non-empty text query is given,
the name or the (non-null) description matches the SQL ILIKE pattern
built as percent–query–percent, in which `%` and `_` act as wildcards
and backslash escapes — for queries free of those metacharacters this
is exactly case-insensitive substring matching. -/
theorem C6_search_filter_amended (input : SearchVenuesInput)
    (venues : List VenueRow) (out : List VenueRow)
    (hout : SearchResult input venues out) (v : VenueRow) :
    v ∈ out ↔ v ∈ venues ∧ qualifies input v := by
  rw [hout.1.mem_iff]
  unfold searchFilter
  rw [List.mem_filter]
  constructor
  · rintro ⟨hm, hd⟩
    exact ⟨hm, @of_decide_eq_true _ (Classical.propDecidable _) hd⟩
  · rintro ⟨hm, hd⟩
    exact ⟨hm, @decide_eq_true _ (Classical.propDecidable _) hd⟩

/-- C6 witness: a venue at the query point qualifies with no filters
given and is returned; the amended characterization applies. -/
theorem C6_search_filter_amended_witness :
    SearchResult demoSearchInput [demoVenue] [demoVenue] ∧
    (demoVenue ∈ ([demoVenue] : List VenueRow) ↔
      demoVenue ∈ [demoVenue] ∧ qualifies demoSearchInput demoVenue) := by
  have hres : SearchResult demoSearchInput [demoVenue] [demoVenue] := by
    constructor
    · rw [searchFilter_eq_self demoSearchInput [demoVenue]
        (fun v hv => (List.mem_singleton.mp hv) ▸ qualifies_demoVenue)]
    · exact List.pairwise_singleton _ _
  exact ⟨hres, C6_search_filter_amended demoSearchInput [demoVenue] [demoVenue]
    hres demoVenue⟩

/-- C6 counterexample: with the text query `_` (a single SQL LIKE
wildcard), the venue named "A" with a null description is included in
the search result even though `_` is not a case-insensitive substring
of "A" and the description is null — the code matches with ILIKE
pattern semantics, not plain substring semantics as the claim states. -/
theorem C6_search_filter_counterexample :
    SearchResult wildcardSearchInput [demoVenue] [demoVenue] ∧
    demoVenue ∈ ([demoVenue] : List VenueRow) ∧
    wildcardSearchInput.query = some "_" ∧
    demoVenue.description = none ∧
    ¬ substringCI "_" demoVenue.name := by
  have hq : qualifies wildcardSearchInput demoVenue := by
    refine ⟨?_, trivial, ?_⟩
    · rw [venueDistance_of_same_point wildcardSearchInput demoVenue rfl rfl,
        effectiveRadius_none wildcardSearchInput rfl]
      norm_num
    · show if ("_" : String) = "" then True else textFilter "_" demoVenue = true
      rw [if_neg (by decide)]
      decide
  refine ⟨?_, List.mem_singleton.mpr rfl, rfl, rfl, by decide⟩
  constructor
  · rw [searchFilter_eq_self wildcardSearchInput [demoVenue]
      (fun v hv => (List.mem_singleton.mp hv) ▸ hq)]
  · exact List.pairwise_singleton _ _

theorem acosArg_origin_pole : acosArg 0 0 90 0 = 0 := by
  unfold acosArg radians
  have h0 : (0:ℝ) * Real.pi / 180 = 0 := by ring
  have h90 : (90:ℝ) * Real.pi / 180 = Real.pi / 2 := by ring
  rw [h0, h90, sub_zero, Real.cos_zero, Real.sin_zero, Real.cos_pi_div_two]
  ring

theorem venueDistance_wide_pole :
    venueDistance wideSearchInput demoVenuePole = 6371 * (Real.pi / 2) := by
  show (6371:ℝ) * Real.arccos (acosArg 0 0 90 0) = 6371 * (Real.pi / 2)
  rw [acosArg_origin_pole, Real.arccos_zero]

theorem qualifies_wide_demoVenue : qualifies wideSearchInput demoVenue := by
  refine ⟨?_, trivial, trivial⟩
  rw [venueDistance_of_same_point wideSearchInput demoVenue rfl rfl,
    effectiveRadius_some wideSearchInput 20000 rfl (by norm_num)]
  norm_num

theorem qualifies_wide_demoVenuePole : qualifies wideSearchInput demoVenuePole := by
  refine ⟨?_, trivial, trivial⟩
  rw [venueDistance_wide_pole,
    effectiveRadius_some wideSearchInput 20000 rfl (by norm_num)]
  nlinarith [Real.pi_le_four]

/-- C8 counterexample: the query orders by distance only, with no
secondary key, so when two venues tie on distance (here, two venues at
the exact query point) both orders of the tied pair are legitimate
results of the very same call — the output is not deterministic, and in
particular ties are not broken by id. -/
theorem C8_ordering_counterexample :
    SearchResult demoSearchInput [demoVenue, demoVenue2] [demoVenue, demoVenue2] ∧
    SearchResult demoSearchInput [demoVenue, demoVenue2] [demoVenue2, demoVenue] ∧
    ([demoVenue, demoVenue2] : List VenueRow) ≠ [demoVenue2, demoVenue] := by
  have hq2 : qualifies demoSearchInput demoVenue2 := by
    refine ⟨?_, trivial, trivial⟩
    rw [venueDistance_of_same_point demoSearchInput demoVenue2 rfl rfl,
      effectiveRadius_none demoSearchInput rfl]
    norm_num
  have hfil : searchFilter demoSearchInput [demoVenue, demoVenue2] =
      [demoVenue, demoVenue2] := by
    apply searchFilter_eq_self
    intro v hv
    rcases List.mem_cons.mp hv with rfl | hv2
    · exact qualifies_demoVenue
    · exact (List.mem_singleton.mp hv2) ▸ hq2
  have hd : venueDistance demoSearchInput demoVenue =
      venueDistance demoSearchInput demoVenue2 := by
    rw [venueDistance_of_same_point demoSearchInput demoVenue rfl rfl,
      venueDistance_of_same_point demoSearchInput demoVenue2 rfl rfl]
  refine ⟨⟨by rw [hfil], ?_⟩, ⟨by rw [hfil]; exact List.Perm.swap _ _ _, ?_⟩, ?_⟩
  · refine List.Pairwise.cons ?_ (List.pairwise_singleton _ _)
    intro b hb
    rw [List.mem_singleton.mp hb, ← hd]
  · refine List.Pairwise.cons ?_ (List.pairwise_singleton _ _)
    intro b hb
    rw [List.mem_singleton.mp hb, ← hd]
  · intro h
    injection h with h1 h2
    exact absurd (congrArg VenueRow.id h1) (by decide)

/-- C8 amended: any possible `searchVenues` result is sorted ascending
by the computed haversine distance — a venue at strictly smaller
distance always precedes one at strictly larger distance — but ties in
distance are left to the store (the query has no secondary sort key),
so the relative order of equal-distance venues is not determined. -/
theorem C8_ordering_amended (input : SearchVenuesInput) (venues : List VenueRow)
    (out : List VenueRow) (hout : SearchResult input venues out)
    (i j : Nat) (hi : i < out.length) (hj : j < out.length)
    (hlt : venueDistance input out[i] < venueDistance input out[j]) : i < j := by
  rcases Nat.lt_trichotomy i j with h | h | h
  · exact h
  · subst h
    exact absurd hlt (lt_irrefl _)
  · have hle := (List.pairwise_iff_getElem.mp hout.2) j i hj hi h
    exact absurd hlt (not_lt.mpr hle)

/-- C8 witness: with a venue at the query point and one at the pole
(both within the explicit radius), the closer venue's index precedes
the farther one's. -/
theorem C8_ordering_amended_witness :
    SearchResult wideSearchInput [demoVenue, demoVenuePole]
      [demoVenue, demoVenuePole] ∧
    venueDistance wideSearchInput demoVenue <
      venueDistance wideSearchInput demoVenuePole ∧
    (0 : Nat) < 1 := by
  have hd1 : venueDistance wideSearchInput demoVenue = 0 :=
    venueDistance_of_same_point wideSearchInput demoVenue rfl rfl
  have hlt : venueDistance wideSearchInput demoVenue <
      venueDistance wideSearchInput demoVenuePole := by
    rw [hd1, venueDistance_wide_pole]
    positivity
  have hres : SearchResult wideSearchInput [demoVenue, demoVenuePole]
      [demoVenue, demoVenuePole] := by
    constructor
    · rw [searchFilter_eq_self wideSearchInput [demoVenue, demoVenuePole] ?_]
      intro v hv
      rcases List.mem_cons.mp hv with rfl | hv2
      · exact qualifies_wide_demoVenue
      · exact (List.mem_singleton.mp hv2) ▸ qualifies_wide_demoVenuePole
    · refine List.Pairwise.cons ?_ (List.pairwise_singleton _ _)
      intro b hb
      rw [List.mem_singleton.mp hb]
      exact hlt.le
  exact ⟨hres, hlt,
    C8_ordering_amended wideSearchInput [demoVenue, demoVenuePole]
      [demoVenue, demoVenuePole] hres 0 1 (by norm_num) (by norm_num) hlt⟩

end FsqClone
